import Mathlib

/-!
Verification development for the ProDy ensemble-handling module
(`prody/ensemble/functions.py`).

The Python functions `saveEnsemble`, `loadEnsemble`, `trimPDBEnsemble`,
`calcOccupancies`, `alignPDBEnsemble`, `buildPDBEnsemble` and
`refineEnsemble` are shallowly embedded below.  Numeric arrays are
modelled with `List` over `Rat`; fallible code returns `Except String`
where the string records the Python exception that would be raised.
Methods of the `Ensemble`/`PDBEnsemble` classes (which live outside the
surveyed module) are modelled from the specification where noted.
-/

namespace ProdyEnsemble

instance exceptDecEq {e a : Type} [DecidableEq e] [DecidableEq a] : DecidableEq (Except e a) :=
  fun x y =>
    match x, y with
    | .ok u, .ok v =>
      if h : u = v then .isTrue (by rw [h]) else .isFalse (by intro hc; cases hc; exact h rfl)
    | .error u, .error v =>
      if h : u = v then .isTrue (by rw [h]) else .isFalse (by intro hc; cases hc; exact h rfl)
    | .ok _, .error _ => .isFalse (by intro hc; cases hc)
    | .error _, .ok _ => .isFalse (by intro hc; cases hc)

/-- Coordinates of one atom (x, y, z). -/
abbrev Coord := Rat × Rat × Rat

/-- Restriction of a per-atom array by an optional index-selection view
(numpy fancy indexing `arr[indices]`; `none` means no active selection). -/
def restrictIdx {a : Type} (xs : List a) (sel : Option (List Nat)) : List a :=
  match sel with
  | none => xs
  | some is => is.filterMap (fun i => xs.get? i)

/-- Model of the `PDBEnsemble` data object: reference coordinates
(`_coords`), conformation coordinate sets (`_confs`, one row per
conformation), presence weights (`_weights`, shape M x N x 1), labels
(`_labels`), the active index-selection view (`_indices`), the attached
atom structure (`_atoms`, abstracted to atom identities) and the
per-conformation transformation records (`_trans`, opaque payload). -/
structure PDBEnsemble where
  title : String
  coords : Option (List Coord)
  confs : List (List Coord)
  weights : Option (List (List (List Rat)))
  labels : List String
  indices : Option (List Nat)
  atoms : Option (List Nat)
  trans : Option (List (List Rat))
  deriving DecidableEq

/-- Modelled from the spec: `Ensemble.numConfs` (and `len(ensemble)`)
is the number of stored conformations. -/
def PDBEnsemble.numConfs (e : PDBEnsemble) : Nat := e.confs.length

/-- Modelled from the spec: `Ensemble.getLabels` returns the label list. -/
def PDBEnsemble.getLabels (e : PDBEnsemble) : List String := e.labels

/-- A reference / protected conformation selector: an integer index or a label. -/
inductive Selector where
  | idx (i : Nat)
  | lbl (s : String)
  deriving DecidableEq

/-- Resolution of the `protected` keyword of `refineEnsemble` (source lines
545..557).  The Python loop keeps a local variable `i`; a label that is not
found only logs a warning, so `P.append(i)` then reuses the stale previous
value of `i`, and if no previous entry ever assigned `i` the append raises
`UnboundLocalError`.  The accumulator `last` models the local `i`. -/
def resolveProtectedGo (labels : List String) :
    Option Nat → List Nat → List Selector → Except String (List Nat)
  | _, acc, [] => .ok acc.reverse
  | _, acc, .idx k :: rest => resolveProtectedGo labels (some k) (k :: acc) rest
  | last, acc, .lbl s :: rest =>
    match labels.findIdx? (fun x => x == s) with
    | some k => resolveProtectedGo labels (some k) (k :: acc) rest
    | none =>
      match last with
      | some k => resolveProtectedGo labels (some k) (k :: acc) rest
      | none => .error "UnboundLocalError: local variable i referenced before assignment"

/-- Entry point of the protected-list resolution. -/
def resolveProtected (labels : List String) (prot : List Selector) : Except String (List Nat) :=
  resolveProtectedGo labels none [] prot

/-- Resolution of the `ref` keyword of `refineEnsemble` (source lines
565..572): an integer passes through, a string goes through
`labels.index(ref_i)` which raises `ValueError` when the label is absent. -/
def resolveRef (labels : List String) (r : Selector) : Except String Nat :=
  match r with
  | .idx i => .ok i
  | .lbl s =>
    match labels.findIdx? (fun x => x == s) with
    | some k => .ok k
    | none => .error "ValueError: label is not in list"

/-- Column degree `deg[j] = A.sum(axis=0)[j]` of the boolean relation. -/
def degOf (n : Nat) (A : Nat → Nat → Bool) (j : Nat) : Nat :=
  ((List.range n).filter (fun i => A i j)).length

/-- The degree vector `A.sum(axis=0)`. -/
def degList (n : Nat) (A : Nat → Nat → Bool) : List Nat :=
  (List.range n).map (degOf n A)

/-- Stable argsort of a vector of naturals, modelling `numpy.argsort`
(ties are resolved by original position; numpy leaves tie order
unspecified, and no claim depends on tie order). -/
def argsort (v : List Nat) : List Nat :=
  List.insertionSort (fun i j => v.getD i 0 ≤ v.getD j 0) (List.range v.length)

/-- All index pairs `(a, b)` with `a < b < n` in the order of the Python
double loop `for a in range(n): for b in range(n): if a >= b: continue`. -/
def scanPairs (n : Nat) : List (Nat × Nat) :=
  (List.range (n * n)).filterMap (fun k =>
    if k / n < k % n then some (k / n, k % n) else none)

/-- One iteration of the greedy pruning scan of `getRefinedIndices`
(source lines 588..602): positions `a < b` of the ordered list `si` name
conformations `i = si[a]`, `j = si[b]`; if neither is already deleted and
the pair violates the relation, delete the non-protected side (preferring
`j`), and delete nobody when both sides are protected. -/
def stepDel (A : Nat → Nat → Bool) (P : List Nat) (si : List Nat)
    (isdel : Nat → Bool) (ab : Nat × Nat) : Nat → Bool :=
  let i := si.getD ab.1 0
  let j := si.getD ab.2 0
  if isdel i || isdel j then isdel
  else if A i j then
    if ¬ j ∈ P then (fun k => if k = j then true else isdel k)
    else if ¬ i ∈ P then (fun k => if k = i then true else isdel k)
    else isdel
  else isdel

/-- The greedy pruning pass `getRefinedIndices` of `refineEnsemble`
(source lines 579..608): sort conformations by ascending degree, move the
reference index to the front (`list.remove` raises `ValueError` when the
reference index is not a valid conformation index), run the pairwise scan
and return the surviving indices in ascending order. -/
def getRefinedIndices (n : Nat) (A : Nat → Nat → Bool) (refi : Nat) (P : List Nat) :
    Except String (List Nat) :=
  let si0 := argsort (degList n A)
  if refi ∈ si0 then
    let si := refi :: si0.erase refi
    let isdel := (scanPairs n).foldl (stepDel A P si) (fun _ => false)
    .ok ((List.range n).filter (fun i => ! isdel i))
  else .error "ValueError: list.remove(x): x not in list"

/-- The lower pruning pass: `A = RMSDs < lower` when a lower threshold is
given, otherwise the full index range survives (source lines 610..614). -/
def lowerPass (n : Nat) (RMSDs : Nat → Nat → Rat) (lower : Option Rat)
    (refi : Nat) (P : List Nat) : Except String (List Nat) :=
  match lower with
  | none => .ok (List.range n)
  | some lo => getRefinedIndices n (fun i j => decide (RMSDs i j < lo)) refi P

/-- The upper pruning pass: `B = RMSDs > upper` when an upper threshold is
given, otherwise the full index range survives (source lines 611..618). -/
def upperPass (n : Nat) (RMSDs : Nat → Nat → Rat) (upper : Option Rat)
    (refi : Nat) (P : List Nat) : Except String (List Nat) :=
  match upper with
  | none => .ok (List.range n)
  | some up => getRefinedIndices n (fun i j => decide (up < RMSDs i j)) refi P

/-- Combination of the two passes (source lines 621..626):
`I = list(set(L) - (set(L) - set(U)))` is the intersection of the two
survivor sets, and `I.sort()` puts it into ascending order. -/
def refineCombine (L U : List Nat) : List Nat :=
  List.insertionSort (fun a b => a ≤ b) (L.filter (fun x => decide (x ∈ U)))

/-- `refineEnsemble` (source lines 524..632).  The pairwise RMSD matrix
`ensemble.getRMSDs(pairwise=True)` is an external computation on the
coordinate data; it is modelled from the spec as the input `RMSDs`.  The
returned index list `I` models the sliced ensemble `ensemble[I]`, whose
conformation membership and order is exactly `I`. -/
def refineEnsemble (ens : PDBEnsemble) (RMSDs : Nat → Nat → Rat)
    (lower upper : Option Rat) (prot : List Selector) (ref : Selector) :
    Except String (List Nat) :=
  match resolveProtected ens.getLabels prot with
  | .error m => .error m
  | .ok P0 =>
    match resolveRef ens.getLabels ref with
    | .error m => .error m
    | .ok refi =>
      let P := if refi ∈ P0 then P0 else refi :: P0
      match lowerPass ens.numConfs RMSDs lower refi P with
      | .error m => .error m
      | .ok L =>
        match upperPass ens.numConfs RMSDs upper refi P with
        | .error m => .error m
        | .ok U => .ok (refineCombine L U)

/-- The Python signature `def refineEnsemble(ensemble, lower=.5, upper=10.)`
defaults both thresholds; a call that omits them is a call with
`lower=0.5` and `upper=10.0`. -/
def refineEnsembleDefault (ens : PDBEnsemble) (RMSDs : Nat → Nat → Rat)
    (prot : List Selector) (ref : Selector) : Except String (List Nat) :=
  refineEnsemble ens RMSDs (some (1 / 2)) (some 10) prot ref

/-- A 4-conformation test ensemble for the C1 witness. -/
def c1Ens : PDBEnsemble := ⟨"t", none, [[], [], [], []], none, [], none, none, none⟩

/-- A 1-conformation test ensemble for the C5 witness. -/
def c5Ens : PDBEnsemble := ⟨"t", none, [[]], none, [], none, none, none⟩

/-- A 2-conformation labelled test ensemble for the C8 theorems. -/
def c8Ens : PDBEnsemble := ⟨"t", none, [[], []], none, ["a", "b"], none, none, none⟩

/-- A 3-conformation test ensemble for C10. -/
def c10Ens : PDBEnsemble := ⟨"t", none, [[], [], []], none, ["a", "b", "c"], none, none, none⟩

/-- RMSD matrix with one too-similar pair (0,1) and too-dissimilar pairs with
conformation 2, exercising both default pruning passes. -/
def c10R : Nat → Nat → Rat := fun i j =>
  if i = j then 0 else if i + j = 1 then 0 else 20

/-- Modelled from the spec: `Ensemble.getAtoms(selected)` returns the attached
atom structure, restricted to the active index-selection view when `selected`
is true and a view is present. -/
def PDBEnsemble.getAtoms (e : PDBEnsemble) (selected : Bool) : Option (List Nat) :=
  match e.atoms with
  | none => none
  | some a => if selected then some (restrictIdx a e.indices) else some a

/-- Modelled from the spec: `Ensemble.getCoords` returns the reference
coordinates restricted to the active index-selection view. -/
def PDBEnsemble.getCoords (e : PDBEnsemble) : Option (List Coord) :=
  e.coords.map (fun c => restrictIdx c e.indices)

/-- Modelled from the spec: `PDBEnsemble.getCoordsets` returns every
conformation's coordinates restricted to the active index-selection view. -/
def PDBEnsemble.getCoordsets (e : PDBEnsemble) : List (List Coord) :=
  e.confs.map (fun row => restrictIdx row e.indices)

/-- Modelled from the spec: `PDBEnsemble.getWeights` returns the presence
weights restricted (along the atom axis) to the active index-selection view. -/
def PDBEnsemble.getWeights (e : PDBEnsemble) : Option (List (List (List Rat))) :=
  e.weights.map (fun w => w.map (fun row => restrictIdx row e.indices))

/-- Modelled from the spec: `Ensemble.numAtoms` counts the active atoms: the
selection-view length when a view is present, else the reference-frame size. -/
def PDBEnsemble.numAtoms (e : PDBEnsemble) : Nat :=
  match e.indices with
  | some is => is.length
  | none => (e.coords.getD []).length

/-- Row flattening; for the rectangular M x N x 1 weight arrays numpy
accepts, `weights.astype(bool).sum(0).flatten()` equals the per-column
nonzero count of the flattened per-conformation rows. -/
def flatRow (row : List (List Rat)) : List Rat :=
  row.foldr (fun a b => a ++ b) []

/-- Per-atom occupancies `weights.astype(bool).sum(0).astype(float).flatten()`
(source line 272): for each flattened column, the number of conformations
whose weight there is nonzero. -/
def occupanciesOf (w : List (List (List Rat))) : List Rat :=
  (List.range ((w.map flatRow).headD []).length).map
    (fun j => (((w.map flatRow).countP (fun r => decide (r.getD j 0 ≠ 0))) : Rat))

/-- `calcOccupancies` (source lines 255..276): requires a nonempty ensemble
and a populated weight array, counts nonzero weights per atom, and divides
by the conformation count when `normed`. -/
def calcOccupancies (e : PDBEnsemble) (normed : Bool) : Except String (List Rat) :=
  if e.numConfs = 0 then
    .error "ValueError: pdb_ensemble does not contain any conformations"
  else
    match e.getWeights with
    | none => .error "ValueError: pdb_ensemble weights are not set"
    | some w =>
      let occ := occupanciesOf w
      .ok (if normed then occ.map (fun x => x / (e.numConfs : Rat)) else occ)

/-- Boolean masking `xs[torf]` of numpy (the two lists have equal length in
every reachable call). -/
def maskList {a : Type} : List Bool → List a → List a
  | true :: bs, x :: xs => x :: maskList bs xs
  | false :: bs, _ :: xs => maskList bs xs
  | _, _ => []

/-- The hard-mode flag of `trimPDBEnsemble` (source lines 186..187): the
`hard` keyword, a missing atom structure, or a missing occupancy each force
the hard path. -/
def trimIsHard (e : PDBEnsemble) (occupancy : Option Rat) (hardKw : Bool) : Bool :=
  hardKw || e.atoms.isNone || occupancy.isNone

/-- `trimPDBEnsemble` (source lines 159..253).  The keep-mask `torf` marks
atoms whose normalized occupancy reaches the threshold (or every active atom
when occupancy is None).  The hard path physically slices atoms, reference
coordinates, conformations and weights by the mask; the soft path keeps the
full underlying arrays and composes the mask positions with any pre-existing
selection view.  The `_msa` payload and the per-ensemble `_data` dictionary
are not modelled (both are copied through opaquely). -/
def trimPDBEnsemble (e : PDBEnsemble) (occupancy : Option Rat) (hardKw : Bool) :
    Except String PDBEnsemble :=
  let hard := trimIsHard e occupancy hardKw
  let atoms := e.getAtoms hard
  if e.numConfs = 0 ∨ e.numAtoms = 0 then
    .error "ValueError: pdb_ensemble must have conformations"
  else
    match (match occupancy with
           | some occ =>
             if ¬ (0 < occ ∧ occ ≤ 1) then
               Except.error "AssertionError: occupancy is not > 0 and <= 1"
             else
               match calcOccupancies e true with
               | .error m => Except.error m
               | .ok occs => Except.ok (occs.map (fun x => decide (occ ≤ x)))
           | none =>
             match e.getCoords with
             | none => Except.error "AttributeError: NoneType object has no attribute shape"
             | some cd => Except.ok (List.replicate cd.length true)) with
    | .error m => .error m
    | .ok torf =>
      if hard then
        match e.getWeights with
        | none => .error "TypeError: NoneType object is not subscriptable"
        | some w =>
          .ok { title := e.title,
                coords := (e.getCoords).map (fun cd => maskList torf cd),
                confs := (e.getCoordsets).map (fun row => maskList torf row),
                weights := some (w.map (fun row => maskList torf row)),
                labels := e.getLabels,
                indices := none,
                atoms := atoms.map (fun a => maskList torf a),
                trans := none }
      else
        let idxs := (List.range torf.length).filter (fun j => torf.getD j false)
        let composed := match e.indices with
          | some sel => idxs.filterMap (fun j => sel.get? j)
          | none => idxs
        .ok { title := e.title,
              coords := e.coords,
              confs := e.confs,
              weights := e.weights,
              labels := e.getLabels,
              indices := some composed,
              atoms := e.atoms,
              trans := none }

/-- Witness ensemble for C2: two conformations, two atoms, atom 0 present in
both conformations and atom 1 present only in the second. -/
def c2Ens : PDBEnsemble :=
  ⟨"t", some [(0, 0, 0), (0, 0, 0)], [[(0, 0, 0), (0, 0, 0)], [(0, 0, 0), (0, 0, 0)]],
   some [[[1], [0]], [[1], [1]]], ["x", "y"], none, some [0, 1], none⟩

/-- Witness ensemble for C7/C3: two conformations, two atoms, full data. -/
def c7Ens : PDBEnsemble :=
  ⟨"t", some [(0, 0, 0), (0, 0, 0)], [[(0, 0, 0), (0, 0, 0)], [(0, 0, 0), (0, 0, 0)]],
   some [[[1], [0]], [[1], [1]]], ["x", "y"], none, some [5, 6], none⟩

/-- Like `c7Ens` but with no attached atom structure. -/
def c7EnsNoAtoms : PDBEnsemble :=
  ⟨"t", some [(0, 0, 0), (0, 0, 0)], [[(0, 0, 0), (0, 0, 0)], [(0, 0, 0), (0, 0, 0)]],
   some [[[1], [0]], [[1], [1]]], ["x", "y"], none, none, none⟩

/-- An input structure for the builder pipeline: its title and whether it
supports `getHierView` (the capability probed at source line 482). -/
structure AtomicM where
  title : String
  hasHier : Bool
  deriving DecidableEq

/-- One AtomMap returned by the external `alignChains` mapping service:
the chain identifiers it covers and its per-position mapped flags. -/
structure AtomMapR where
  chids : List String
  mapped : List Bool
  deriving DecidableEq

/-- One conformation added by the builder: its label and presence weights. -/
structure BuildConf where
  label : String
  weights : List Bool
  deriving DecidableEq

/-- The builder's ensemble state: title, reference atoms, conformations. -/
structure BuildEns where
  title : String
  atoms : Option AtomicM
  confs : List BuildConf
  deriving DecidableEq

/-- The `ref` argument of `buildPDBEnsemble`: None (default to the first
input), an index into the inputs, an explicit structure, or an existing
ensemble to extend. -/
inductive BuildRef where
  | auto
  | index (i : Nat)
  | struct (a : AtomicM)
  | ens (e : BuildEns)

/-- `pystr` applied to a label that may be None (`str(None)` is "None"). -/
def pystrOpt : Option String → String
  | some s => s
  | none => "None"

/-- `''.join(numpy.unique(chids))`: the sorted deduplicated chain letters. -/
def sortedUniqueChids (chids : List String) : String :=
  String.join (List.insertionSort (fun a b => a ≤ b) chids.dedup)

/-- Reference resolution of `buildPDBEnsemble` (source lines 450..457):
`atomics[0]` or `atomics[ref]` raise IndexError on an out-of-range index, an
explicit structure passes through, and an ensemble reference contributes its
attached atoms. -/
def resolveBuildTarget (atomics : List (Option AtomicM)) :
    BuildRef → Except String (Option AtomicM)
  | .auto =>
    match atomics.head? with
    | none => .error "IndexError: list index out of range"
    | some t => .ok t
  | .index i =>
    match atomics.get? i with
    | none => .error "IndexError: list index out of range"
    | some t => .ok t
  | .struct a => .ok (some a)
  | .ens e => .ok e.atoms

/-- The ingestion loop of `buildPDBEnsemble` (source lines 474..506): a None
input or an input with zero AtomMaps appends its label to the unmapped list
and continues; an input without `getHierView` raises TypeError; otherwise
every returned AtomMap is added as one conformation, with the chain
identifiers appended to the label when a structure yields several AtomMaps. -/
def buildLoop (mapper : AtomicM → Option AtomicM → List AtomMapR)
    (select : AtomicM → AtomicM) (applySel : Bool) (target : Option AtomicM) :
    List (Option AtomicM × Option String) → BuildEns → List (Option String) →
      Except String (BuildEns × List (Option String))
  | [], ens, unmapped => .ok (ens, unmapped)
  | (none, lbl) :: rest, ens, unmapped =>
    buildLoop mapper select applySel target rest ens (unmapped ++ [lbl])
  | (some atoms, lbl) :: rest, ens, unmapped =>
    if ¬ atoms.hasHier then
      .error "TypeError: atomics must be a list of instances having the access to getHierView"
    else
      let atoms2 := if applySel then select atoms else atoms
      let ams := mapper atoms2 target
      if ams.length = 0 then
        buildLoop mapper select applySel target rest ens (unmapped ++ [lbl])
      else
        let newConfs := ams.map (fun am =>
          { label := pystrOpt lbl
              ++ (if 1 < ams.length then "_" ++ sortedUniqueChids am.chids else ""),
            weights := am.mapped })
        buildLoop mapper select applySel target rest
          { ens with confs := ens.confs ++ newConfs } unmapped

/-- `buildPDBEnsemble` (source lines 382..522).  The external mapping
service `alignChains` is the input `mapper` and the subset filter
`select(subset)` is the input `select` (applied when the subset is not
"all", the flag `applySel`).  The post-pass occupancy trim and the final
superposition act on coordinate data through `trimPDBEnsemble` and the
external superpose/iterpose methods and do not affect membership or the
unmapped output; they are outside this model, which covers the default
`occupancy=None` configuration. -/
def buildPDBEnsemble (mapper : AtomicM → Option AtomicM → List AtomMapR)
    (select : AtomicM → AtomicM) (applySel : Bool)
    (atomics : List (Option AtomicM)) (ref : BuildRef) (title : String)
    (labels0 : Option (List (Option String))) (unmapped0 : List (Option String)) :
    Except String (BuildEns × List (Option String)) :=
  if atomics.length = 1 then .error "ValueError: atomics should have at least two items"
  else
    match (match labels0 with
           | some ls =>
             if ls.length ≠ atomics.length then
               Except.error "TypeError: Labels and atomics must have the same lengths."
             else Except.ok ls
           | none => Except.ok (atomics.map (fun a => Option.map AtomicM.title a))) with
    | .error m => .error m
    | .ok labels =>
      match resolveBuildTarget atomics ref with
      | .error m => .error m
      | .ok tgt =>
        match ref with
        | .ens e => buildLoop mapper select applySel tgt (atomics.zip labels) e unmapped0
        | _ =>
          match tgt with
          | none => .error "AttributeError: NoneType object has no attribute select"
          | some t =>
            let t2 := if applySel then select t else t
            buildLoop mapper select applySel (some t2) (atomics.zip labels)
              { title := title, atoms := some t2, confs := [] } unmapped0

/-- The labels the ingestion loop records as unmapped: those of None inputs
and of inputs for which the mapping service returns zero AtomMaps. -/
def expectedUnmapped (mapper : AtomicM → Option AtomicM → List AtomMapR)
    (select : AtomicM → AtomicM) (applySel : Bool) (target : Option AtomicM)
    (pairs : List (Option AtomicM × Option String)) : List (Option String) :=
  pairs.filterMap (fun p =>
    match p.1 with
    | none => some p.2
    | some a =>
      if (mapper (if applySel then select a else a) target).length = 0 then some p.2
      else none)

/-- An empty builder ensemble used by the C4 theorems. -/
def c4Ens : BuildEns := ⟨"t", none, []⟩

/-- An in-memory parsed structure for the alignment exporter: only its
coordinate-set count is observable in the modelled control flow. -/
structure AtomGroupM where
  ncsets : Nat
  deriving DecidableEq

/-- A PDB conformation as seen by `alignPDBEnsemble`: its label and whether a
Transformation has been computed for it. -/
structure PDBConfM where
  label : String
  hasTrans : Bool
  deriving DecidableEq

/-- Return value of `alignPDBEnsemble`: `output[0]` when the output list has
exactly one entry, otherwise the whole list. -/
inductive AlignOut where
  | one (p : Option String)
  | many (ps : List (Option String))
  deriving DecidableEq

/-- `label[:4]`, the PDB identifier prefix of a conformation label. -/
def pdbIdOf (label : String) : String :=
  String.mk (label.toList.take 4)

/-- Index of the last occurrence of a character (`str.rfind`), if any. -/
def lastIdxOf (c : Char) (cs : List Char) : Option Nat :=
  match cs.reverse.findIdx? (fun x => x == c) with
  | none => none
  | some r => some (cs.length - 1 - r)

/-- Numeric value of a digit string (`int`). -/
def digitsVal (cs : List Char) : Nat :=
  cs.foldl (fun a c => a * 10 + (c.toNat - 48)) 0

/-- The model-number parse of `alignPDBEnsemble` (source lines 345..352):
when the last `m` of the label sits past position 3 and the trailing suffix
is all digits, the active-coordinate-set index is that number minus one
(Python `rfind` returns -1 when `m` is absent, which fails the `> 3` test). -/
def parseModelIndex (label : String) : Option Int :=
  let cs := label.toList
  match lastIdxOf 'm' cs with
  | none => none
  | some pos =>
    if 3 < pos then
      let suffix := cs.drop (pos + 1)
      if suffix ≠ [] ∧ suffix.all Char.isDigit then some ((digitsVal suffix : Int) - 1)
      else none
    else none

/-- Processing of one conformation by `alignPDBEnsemble` (source lines
328..372).  A missing source file (cache miss and failed fetch) or an
out-of-range model number appends None to the output and leaves the cache
unchanged; a missing Transformation raises; otherwise the output records the
output path (`os.path.join`/`normpath` modelled as plain concatenation) and
a parsed structure with several coordinate sets is cached for the final
write-out instead of being written immediately. -/
def alignStep (fetch : String → Option String) (parse : String → AtomGroupM)
    (outdir suffix gz : String)
    (st : List (Option String) × List (String × AtomGroupM)) (conf : PDBConfM) :
    Except String (List (Option String) × List (String × AtomGroupM)) :=
  if ¬ conf.hasTrans then
    .error "ValueError: transformations are not calculated, call superpose or iterpose"
  else
    let pdb := pdbIdOf conf.label
    let filename : Option (Sum String AtomGroupM) :=
      match List.lookup pdb st.2 with
      | some ag => some (.inr ag)
      | none => (fetch pdb).map .inl
    match filename with
    | none => .ok (st.1 ++ [none], st.2)
    | some fn =>
      let acsi := parseModelIndex conf.label
      let ag := match fn with
        | .inl s => parse s
        | .inr ag => ag
      let outOfRange := match acsi with
        | some a => decide ((ag.ncsets : Int) ≤ a)
        | none => false
      if outOfRange then .ok (st.1 ++ [none], st.2)
      else
        let outfn := outdir ++ "/" ++ pdb ++ suffix ++ ".pdb" ++ gz
        let dict := if 1 < ag.ncsets then (pdb, ag) :: st.2 else st.2
        .ok (st.1 ++ [some outfn], dict)

/-- The conformation loop of `alignPDBEnsemble`. -/
def alignLoop (fetch : String → Option String) (parse : String → AtomGroupM)
    (outdir suffix gz : String) :
    List PDBConfM → (List (Option String) × List (String × AtomGroupM)) →
      Except String (List (Option String) × List (String × AtomGroupM))
  | [], st => .ok st
  | c :: cs, st =>
    match alignStep fetch parse outdir suffix gz st c with
    | .error m => .error m
    | .ok st2 => alignLoop fetch parse outdir suffix gz cs st2

/-- `alignPDBEnsemble` (source lines 303..379).  The final write-out of the
cached multi-model structures is file I/O and is not modelled; the return
value is `output[0]` when exactly one entry was recorded, else the list. -/
def alignPDBEnsemble (fetch : String → Option String) (parse : String → AtomGroupM)
    (confs : List PDBConfM) (suffix outdir gz : String) : Except String AlignOut :=
  match alignLoop fetch parse outdir suffix gz confs ([], []) with
  | .error m => .error m
  | .ok (out, _) =>
    match out with
    | [p] => .ok (.one p)
    | _ => .ok (.many out)

/-- Model of the plain `Ensemble` data object (no per-conformation presence
weights or labels): its weights, when set, form a 2-D (atoms x 1) array. -/
structure PlainEnsemble where
  title : String
  coords : Option (List Coord)
  confs : List (List Coord)
  weights : Option (List (List Rat))
  indices : Option (List Nat)
  atoms : Option (List Nat)
  deriving DecidableEq

/-- A weight array in the archive together with its number of dimensions:
`loadEnsemble` decides the ensemble kind by `weights.ndim == 3`. -/
inductive NpWeights where
  | dim2 (w : List (List Rat))
  | dim3 (w : List (List (List Rat)))
  deriving DecidableEq

/-- A stored label, possibly byte-like; loading decodes bytes to text. -/
inductive LabelVal where
  | txt (s : String)
  | bytes (s : String)
  deriving DecidableEq

/-- The logical content of the `.ens.npz` archive written by `saveEnsemble`
(source lines 24..70): the named records `_title`, `_coords`, `_confs`,
`_weights`, `_indices`, `_labels`, `_trans` and `_atoms`; absent attributes
are simply missing from the archive.  The opaque `_data`/`_msa` blobs are
not modelled.  numpy.savez / numpy.load round-trip the records exactly. -/
structure EnsArchive where
  title : String
  coords : Option (List Coord)
  confs : List (List Coord)
  weights : Option NpWeights
  indices : Option (List Nat)
  labels : Option (List LabelVal)
  trans : Option (List (List Rat))
  atoms : Option (List Nat)
  deriving DecidableEq

/-- The two ensemble kinds `loadEnsemble` can reconstruct. -/
inductive EnsembleObj where
  | plain (e : PlainEnsemble)
  | pdb (e : PDBEnsemble)
  deriving DecidableEq

/-- Byte-like labels are decoded to text on load (source lines 141..147). -/
def normalizeLabel : LabelVal → String
  | .txt s => s
  | .bytes s => s

/-- `saveEnsemble` (source lines 24..70): refuses an empty ensemble and
writes each non-None attribute; a PDBEnsemble additionally stores its labels
and transformations, and its 3-D weight array keeps its dimension. -/
def saveEnsemble : EnsembleObj → Except String EnsArchive
  | .pdb e =>
    if e.confs.length = 0 then .error "ValueError: ensemble instance does not contain data"
    else .ok { title := e.title, coords := e.coords, confs := e.confs,
               weights := e.weights.map NpWeights.dim3,
               indices := e.indices,
               labels := some (e.labels.map LabelVal.txt),
               trans := e.trans, atoms := e.atoms }
  | .plain e =>
    if e.confs.length = 0 then .error "ValueError: ensemble instance does not contain data"
    else .ok { title := e.title, coords := e.coords, confs := e.confs,
               weights := e.weights.map NpWeights.dim2,
               indices := e.indices, labels := none, trans := none, atoms := e.atoms }

/-- `loadEnsemble` (source lines 73..156): a missing `_coords` record raises
a KeyError; the ensemble is a PDBEnsemble exactly when a 3-D weight array is
present; stored labels overwrite the defaults assigned by `addCoordset`
(modelled from the spec as the title repeated), with byte-like labels decoded
to text. -/
def loadEnsemble (arch : EnsArchive) : Except String EnsembleObj :=
  match arch.coords with
  | none => .error "KeyError: _coords"
  | some cd =>
    match arch.weights with
    | some (.dim3 w) =>
      .ok (.pdb { title := arch.title, coords := some cd, confs := arch.confs,
                  weights := some w,
                  labels := (match arch.labels with
                    | some ls => ls.map normalizeLabel
                    | none => List.replicate arch.confs.length arch.title),
                  indices := arch.indices, atoms := arch.atoms, trans := arch.trans })
    | some (.dim2 w) =>
      .ok (.plain { title := arch.title, coords := some cd, confs := arch.confs,
                    weights := some w, indices := arch.indices, atoms := arch.atoms })
    | none =>
      .ok (.plain { title := arch.title, coords := some cd, confs := arch.confs,
                    weights := none, indices := arch.indices, atoms := arch.atoms })

/-- Witness ensemble for C9: one conformation, one atom, full attributes. -/
def c9Ens : PDBEnsemble :=
  ⟨"t", some [(0, 0, 0)], [[(0, 0, 0)]], some [[[1]]], ["x"], none, some [7], some [[1, 2]]⟩

lemma getD_lt_of_forall {l : List Nat} {n i : Nat} (hl : ∀ x ∈ l, x < n) (hn : 0 < n) :
    l.getD i 0 < n := by
  by_cases h : i < l.length
  · rw [List.getD_eq_getElem l 0 h]
    exact hl _ (List.getElem_mem h)
  · rw [List.getD_eq_default l 0 (Nat.le_of_not_lt h)]
    exact hn

lemma stepDel_congr {n : Nat} {A B : Nat → Nat → Bool} {P si : List Nat}
    (h : ∀ i j, i < n → j < n → A i j = B i j)
    (hsi : ∀ x ∈ si, x < n) (hn : 0 < n) (acc : Nat → Bool) (ab : Nat × Nat) :
    stepDel A P si acc ab = stepDel B P si acc ab := by
  simp only [stepDel]
  rw [h _ _ (getD_lt_of_forall hsi hn) (getD_lt_of_forall hsi hn)]

lemma foldl_stepDel_congr {n : Nat} {A B : Nat → Nat → Bool} {P si : List Nat}
    (h : ∀ i j, i < n → j < n → A i j = B i j)
    (hsi : ∀ x ∈ si, x < n) (hn : 0 < n) :
    ∀ (pairs : List (Nat × Nat)) (acc : Nat → Bool),
      pairs.foldl (stepDel A P si) acc = pairs.foldl (stepDel B P si) acc := by
  intro pairs
  induction pairs with
  | nil => intro acc; rfl
  | cons p ps ih =>
    intro acc
    simp only [List.foldl_cons]
    rw [stepDel_congr h hsi hn]
    exact ih _

lemma mem_argsort {v : List Nat} {x : Nat} : x ∈ argsort v ↔ x < v.length := by
  unfold argsort
  rw [(List.perm_insertionSort _ _).mem_iff, List.mem_range]

lemma length_degList (n : Nat) (A : Nat → Nat → Bool) : (degList n A).length = n := by
  simp [degList]

lemma getRefinedIndices_congr {n : Nat} {A B : Nat → Nat → Bool} {refi : Nat} {P : List Nat}
    (h : ∀ i j, i < n → j < n → A i j = B i j) :
    getRefinedIndices n A refi P = getRefinedIndices n B refi P := by
  have hdeg : degList n A = degList n B := by
    apply List.map_congr_left
    intro j hj
    unfold degOf
    congr 1
    exact List.filter_congr fun i hi => h i j (List.mem_range.mp hi) (List.mem_range.mp hj)
  unfold getRefinedIndices
  rw [hdeg]
  by_cases hmem : refi ∈ argsort (degList n B)
  · rw [if_pos hmem, if_pos hmem]
    have hrefi : refi < n := by
      have := mem_argsort.mp hmem
      rwa [length_degList] at this
    have hsi : ∀ x ∈ refi :: (argsort (degList n B)).erase refi, x < n := by
      intro x hx
      rcases List.mem_cons.mp hx with h1 | h1
      · exact h1 ▸ hrefi
      · have := mem_argsort.mp (List.mem_of_mem_erase h1)
        rwa [length_degList] at this
    have hfold := foldl_stepDel_congr (P := P) h hsi
      (Nat.lt_of_le_of_lt (Nat.zero_le refi) hrefi)
      (scanPairs n) (fun _ => false)
    dsimp only
    rw [hfold]
  · rw [if_neg hmem, if_neg hmem]

lemma lowerPass_congr {n : Nat} {RMSDs RMSDs2 : Nat → Nat → Rat} {lo : Rat} {refi : Nat}
    {P : List Nat} (h : ∀ i j, i < n → j < n → RMSDs i j = RMSDs2 i j) :
    lowerPass n RMSDs (some lo) refi P = lowerPass n RMSDs2 (some lo) refi P := by
  unfold lowerPass
  exact getRefinedIndices_congr fun i j hi hj => by rw [h i j hi hj]

lemma upperPass_congr {n : Nat} {RMSDs RMSDs2 : Nat → Nat → Rat} {up : Rat} {refi : Nat}
    {P : List Nat} (h : ∀ i j, i < n → j < n → RMSDs i j = RMSDs2 i j) :
    upperPass n RMSDs (some up) refi P = upperPass n RMSDs2 (some up) refi P := by
  unfold upperPass
  exact getRefinedIndices_congr fun i j hi hj => by rw [h i j hi hj]

lemma refineEnsemble_eq_ok (ens : PDBEnsemble) (RMSDs : Nat → Nat → Rat)
    (lo up : Option Rat) (pr : List Selector) (rf : Selector)
    (P0 P L U : List Nat) (refi : Nat)
    (h1 : resolveProtected ens.getLabels pr = .ok P0)
    (h2 : resolveRef ens.getLabels rf = .ok refi)
    (hP : (if refi ∈ P0 then P0 else refi :: P0) = P)
    (h3 : lowerPass ens.numConfs RMSDs lo refi P = .ok L)
    (h4 : upperPass ens.numConfs RMSDs up refi P = .ok U) :
    refineEnsemble ens RMSDs lo up pr rf = .ok (refineCombine L U) := by
  unfold refineEnsemble
  rw [h1]
  dsimp only
  rw [h2]
  dsimp only
  rw [hP, h3]
  dsimp only
  rw [h4]

lemma findIdx?_beq_eq_none :
    ∀ (labels : List String) (s : String), s ∉ labels →
      ∀ i, List.findIdx? (fun x => x == s) labels i = none := by
  intro labels s
  induction labels with
  | nil => intro _ _; rfl
  | cons a l ih =>
    intro h i
    rw [List.findIdx?_cons]
    have ha : (a == s) = false :=
      beq_eq_false_iff_ne.mpr (fun he => h (he ▸ List.mem_cons_self a l))
    rw [ha]
    simp only [Bool.false_eq_true, if_false]
    exact ih (fun hs => h (List.mem_cons_of_mem a hs)) (i + 1)


/-- C1: for every 4-conformation PDBEnsemble in which every pairwise RMSD
equals 0, refineEnsemble with lower=0.5, upper=None and no protected entries
returns a 1-conformation ensemble containing exactly the resolved reference
conformation (index 0); and in general the surviving set is the intersection
of the lower-pass and upper-pass survivor sets, sorted into ascending
original index order. -/
theorem refine_zero_rmsd_and_intersection (ens : PDBEnsemble) (RMSDs : Nat → Nat → Rat)
    (h4 : ens.numConfs = 4) (hR : ∀ i j, i < 4 → j < 4 → RMSDs i j = 0) :
    refineEnsemble ens RMSDs (some (1 / 2)) none [] (.idx 0) = .ok [0]
    ∧ (∀ L U : List Nat, (refineCombine L U).Sorted (· ≤ ·)
        ∧ ∀ x, x ∈ refineCombine L U ↔ x ∈ L ∧ x ∈ U)
    ∧ (∀ (ens2 : PDBEnsemble) (R2 : Nat → Nat → Rat) (lo up : Option Rat)
        (pr : List Selector) (rf : Selector) (P0 P L U : List Nat) (refi : Nat),
        resolveProtected ens2.getLabels pr = .ok P0 →
        resolveRef ens2.getLabels rf = .ok refi →
        (if refi ∈ P0 then P0 else refi :: P0) = P →
        lowerPass ens2.numConfs R2 lo refi P = .ok L →
        upperPass ens2.numConfs R2 up refi P = .ok U →
        refineEnsemble ens2 R2 lo up pr rf = .ok (refineCombine L U)) := by
  have hA : ∀ i j, i < 4 → j < 4 → decide (RMSDs i j < 1 / 2) = true := by
    intro i j hi hj
    rw [hR i j hi hj]
    simp only [decide_eq_true_eq]
    norm_num
  have hL : lowerPass ens.numConfs RMSDs (some (1 / 2)) 0 [0] = .ok [0] := by
    rw [h4]
    unfold lowerPass
    dsimp only
    rw [getRefinedIndices_congr (B := fun _ _ => true) (fun i j hi hj => hA i j hi hj)]
    decide
  have hU : upperPass ens.numConfs RMSDs none 0 [0] = .ok (List.range 4) := by
    rw [h4]
    rfl
  refine ⟨?_, ?_, ?_⟩
  · have hmain := refineEnsemble_eq_ok ens RMSDs (some (1 / 2)) none [] (.idx 0)
      [] [0] [0] (List.range 4) 0 rfl rfl (by decide) hL hU
    rw [hmain]
    decide
  · intro L U
    refine ⟨List.sorted_insertionSort _ _, ?_⟩
    intro x
    unfold refineCombine
    rw [(List.perm_insertionSort _ _).mem_iff, List.mem_filter]
    simp only [decide_eq_true_eq]
  · intro ens2 R2 lo up pr rf P0 P L U refi h1 h2 hP h3 h4u
    exact refineEnsemble_eq_ok ens2 R2 lo up pr rf P0 P L U refi h1 h2 hP h3 h4u

/-- Witness for C1: the hypotheses hold and the theorem applies at a concrete
4-conformation ensemble with the all-zero RMSD matrix. -/
theorem refine_zero_rmsd_witness :
    c1Ens.numConfs = 4 ∧
    refineEnsemble c1Ens (fun _ _ => 0) (some (1 / 2)) none [] (.idx 0) = .ok [0] :=
  ⟨by decide,
   (refine_zero_rmsd_and_intersection c1Ens (fun _ _ => 0) (by decide)
     (fun _ _ _ _ => rfl)).1⟩


/-- C5: for every ensemble with at least one conformation, refineEnsemble with
lower=None and upper=None keeps every conformation index in ascending order:
the surviving index list is exactly the full range. -/
theorem refine_no_thresholds (ens : PDBEnsemble) (RMSDs : Nat → Nat → Rat)
    (h : 1 ≤ ens.numConfs) :
    refineEnsemble ens RMSDs none none [] (.idx 0) = .ok (List.range ens.numConfs) := by
  have hcomb : refineCombine (List.range ens.numConfs) (List.range ens.numConfs)
      = List.range ens.numConfs := by
    unfold refineCombine
    have hf : (List.range ens.numConfs).filter
        (fun x => decide (x ∈ List.range ens.numConfs)) = List.range ens.numConfs :=
      List.filter_eq_self.mpr (fun a ha => decide_eq_true ha)
    rw [hf]
    exact List.eq_of_perm_of_sorted (List.perm_insertionSort _ _)
      (List.sorted_insertionSort _ _) ((List.pairwise_lt_range _).imp le_of_lt)
  have hmain := refineEnsemble_eq_ok ens RMSDs none none [] (.idx 0)
    [] [0] (List.range ens.numConfs) (List.range ens.numConfs) 0 rfl rfl (by decide) rfl rfl
  rw [hmain, hcomb]

/-- Witness for C5 at a concrete 1-conformation ensemble. -/
theorem refine_no_thresholds_witness :
    1 ≤ c5Ens.numConfs ∧
    refineEnsemble c5Ens (fun _ _ => 0) none none [] (.idx 0) = .ok (List.range c5Ens.numConfs) :=
  ⟨by decide, refine_no_thresholds c5Ens (fun _ _ => 0) (by decide)⟩


/-- C8 counterexample: a reference label absent from the ensemble labels makes
refineEnsemble raise a lookup ValueError (from `labels.index`), and an absent
label as the first protected entry raises an UnboundLocalError; neither case
merely warns and proceeds. -/
theorem refine_missing_label_raises :
    refineEnsemble c8Ens (fun _ _ => 0) none none [] (.lbl "zz")
      = .error "ValueError: label is not in list"
    ∧ refineEnsemble c8Ens (fun _ _ => 0) none none [.lbl "zz"] (.idx 0)
      = .error "UnboundLocalError: local variable i referenced before assignment" :=
  ⟨rfl, rfl⟩

/-- C8 (amended): a protected label that is not found and is not the first
protected entry produces only a warning and proceeds with the stale index of
the preceding entry; an unmatched protected label in the first position
raises an UnboundLocalError, and an unmatched reference label raises a
ValueError from the list-index lookup. -/
theorem refine_lookup_failure_spec :
    (∀ (ens : PDBEnsemble) (R : Nat → Nat → Rat) (lo up : Option Rat)
       (k : Nat) (s : String) (rest : List Selector) (rf : Selector),
       s ∉ ens.getLabels →
       refineEnsemble ens R lo up (.idx k :: .lbl s :: rest) rf =
       refineEnsemble ens R lo up (.idx k :: .idx k :: rest) rf)
    ∧ (∀ (ens : PDBEnsemble) (R : Nat → Nat → Rat) (lo up : Option Rat)
        (s : String) (rest : List Selector) (rf : Selector),
        s ∉ ens.getLabels →
        refineEnsemble ens R lo up (.lbl s :: rest) rf
          = .error "UnboundLocalError: local variable i referenced before assignment")
    ∧ (∀ (ens : PDBEnsemble) (R : Nat → Nat → Rat) (lo up : Option Rat) (s : String),
        s ∉ ens.getLabels →
        refineEnsemble ens R lo up [] (.lbl s)
          = .error "ValueError: label is not in list") := by
  refine ⟨?_, ?_, ?_⟩
  · intro ens R lo up k s rest rf h
    have hgo : resolveProtected ens.getLabels (.idx k :: .lbl s :: rest)
        = resolveProtected ens.getLabels (.idx k :: .idx k :: rest) := by
      unfold resolveProtected
      simp only [resolveProtectedGo]
      rw [findIdx?_beq_eq_none ens.getLabels s h 0]
    unfold refineEnsemble
    rw [hgo]
  · intro ens R lo up s rest rf h
    have hgo : resolveProtected ens.getLabels (.lbl s :: rest)
        = .error "UnboundLocalError: local variable i referenced before assignment" := by
      unfold resolveProtected
      simp only [resolveProtectedGo]
      rw [findIdx?_beq_eq_none ens.getLabels s h 0]
    unfold refineEnsemble
    rw [hgo]
  · intro ens R lo up s h
    have h2 : resolveRef ens.getLabels (.lbl s) = .error "ValueError: label is not in list" := by
      unfold resolveRef
      dsimp only
      rw [findIdx?_beq_eq_none ens.getLabels s h 0]
    unfold refineEnsemble
    rw [h2]
    rfl

/-- Witness for C8 (amended) at a concrete ensemble and a concrete absent label. -/
theorem refine_lookup_failure_witness :
    ("zz" ∉ c8Ens.getLabels) ∧
    refineEnsemble c8Ens (fun _ _ => 0) none none [.idx 1, .lbl "zz"] (.idx 0) =
      refineEnsemble c8Ens (fun _ _ => 0) none none [.idx 1, .idx 1] (.idx 0) :=
  ⟨by decide,
   refine_lookup_failure_spec.1 c8Ens (fun _ _ => 0) none none 1 "zz" [] (.idx 0) (by decide)⟩

/-- C10: the thresholds of refineEnsemble default to lower=0.5 and upper=10.0,
so a call that omits them applies both pruning passes (here removing a
too-similar and a too-dissimilar conformation), while the no-constraint
behavior requires explicitly passing None: the same ensemble is returned
unchanged only by the None/None call. -/
theorem refine_default_thresholds :
    (∀ (ens : PDBEnsemble) (R : Nat → Nat → Rat) (pr : List Selector) (rf : Selector),
      refineEnsembleDefault ens R pr rf = refineEnsemble ens R (some (1 / 2)) (some 10) pr rf)
    ∧ refineEnsembleDefault c10Ens c10R [] (.idx 0) = .ok [0]
    ∧ refineEnsemble c10Ens c10R none none [] (.idx 0) = .ok [0, 1, 2] := by
  have hA : ∀ i j, i < 3 → j < 3 →
      decide (c10R i j < 1 / 2) = (decide (i = j) || decide (i + j = 1)) := by
    intro i j _ _
    unfold c10R
    rcases eq_or_ne i j with hij | hij
    · subst hij
      have h0 : ((0 : Rat) < 1 / 2) := by norm_num
      rw [if_pos rfl, decide_eq_true h0]
      simp
    · rcases eq_or_ne (i + j) 1 with hsum | hsum
      · have h0 : ((0 : Rat) < 1 / 2) := by norm_num
        rw [if_neg hij, if_pos hsum, decide_eq_true h0]
        simp [hij, hsum]
      · have h0 : ¬((20 : Rat) < 1 / 2) := by norm_num
        rw [if_neg hij, if_neg hsum, decide_eq_false h0]
        simp [hij, hsum]
  have hB : ∀ i j, i < 3 → j < 3 →
      decide ((10 : Rat) < c10R i j) = (!(decide (i = j) || decide (i + j = 1))) := by
    intro i j _ _
    unfold c10R
    rcases eq_or_ne i j with hij | hij
    · subst hij
      have h0 : ¬((10 : Rat) < 0) := by norm_num
      rw [if_pos rfl, decide_eq_false h0]
      simp
    · rcases eq_or_ne (i + j) 1 with hsum | hsum
      · have h0 : ¬((10 : Rat) < 0) := by norm_num
        rw [if_neg hij, if_pos hsum, decide_eq_false h0]
        simp [hij, hsum]
      · have h0 : ((10 : Rat) < 20) := by norm_num
        rw [if_neg hij, if_neg hsum, decide_eq_true h0]
        simp [hij, hsum]
  have hL : lowerPass c10Ens.numConfs c10R (some (1 / 2)) 0 [0] = .ok [0, 2] := by
    show lowerPass 3 c10R (some (1 / 2)) 0 [0] = .ok [0, 2]
    unfold lowerPass
    dsimp only
    rw [getRefinedIndices_congr
      (B := fun i j => decide (i = j) || decide (i + j = 1)) hA]
    decide
  have hU : upperPass c10Ens.numConfs c10R (some 10) 0 [0] = .ok [0, 1] := by
    show upperPass 3 c10R (some 10) 0 [0] = .ok [0, 1]
    unfold upperPass
    dsimp only
    rw [getRefinedIndices_congr
      (B := fun i j => !(decide (i = j) || decide (i + j = 1))) hB]
    decide
  refine ⟨fun ens R pr rf => rfl, ?_, ?_⟩
  · have hmain := refineEnsemble_eq_ok c10Ens c10R (some (1 / 2)) (some 10) [] (.idx 0)
      [] [0] [0, 2] [0, 1] 0 rfl rfl (by decide) hL hU
    show refineEnsemble c10Ens c10R (some (1 / 2)) (some 10) [] (.idx 0) = .ok [0]
    rw [hmain]
    decide
  · have hmain := refineEnsemble_eq_ok c10Ens c10R none none [] (.idx 0)
      [] [0] (List.range c10Ens.numConfs) (List.range c10Ens.numConfs) 0
      rfl rfl (by decide) rfl rfl
    rw [hmain]
    decide

lemma maskList_length {a : Type} :
    ∀ (bs : List Bool) (xs : List a), bs.length = xs.length →
      (maskList bs xs).length = bs.countP id := by
  intro bs
  induction bs with
  | nil => intro xs _; simp [maskList]
  | cons b t ih =>
    intro xs h
    match xs, h with
    | x :: xs, h =>
      cases b with
      | true =>
        simp only [maskList, List.length_cons, List.countP_cons]
        rw [ih xs (by simpa using h)]
        simp [id]
      | false =>
        simp only [maskList, List.countP_cons]
        rw [ih xs (by simpa using h)]
        simp [id]

lemma range_filter_getD_length :
    ∀ bs : List Bool,
      ((List.range bs.length).filter (fun j => bs.getD j false)).length = bs.countP id := by
  intro bs
  induction bs with
  | nil => rfl
  | cons b t ih =>
    rw [List.length_cons, List.range_succ_eq_map]
    have hcomp : ((fun j => (b :: t).getD j false) ∘ Nat.succ) = (fun j => t.getD j false) := by
      funext j
      simp [Function.comp, List.getD_cons_succ]
    cases b with
    | true =>
      rw [List.filter_cons_of_pos (by rfl), List.filter_map, hcomp, List.length_cons,
        List.length_map, ih, List.countP_cons]
      simp [id]
    | false =>
      rw [List.filter_cons_of_neg (by simp), List.filter_map, hcomp, List.length_map, ih,
        List.countP_cons]
      simp [id]

lemma getWeights_no_view (e : PDBEnsemble) (w : List (List (List Rat)))
    (hw : e.weights = some w) (hn : e.indices = none) : e.getWeights = some w := by
  unfold PDBEnsemble.getWeights
  rw [hw, hn]
  simp [restrictIdx]

lemma getCoords_no_view (e : PDBEnsemble) (cd : List Coord)
    (hc : e.coords = some cd) (hn : e.indices = none) : e.getCoords = some cd := by
  unfold PDBEnsemble.getCoords
  rw [hc, hn]
  rfl

lemma getCoordsets_no_view (e : PDBEnsemble) (hn : e.indices = none) :
    e.getCoordsets = e.confs := by
  unfold PDBEnsemble.getCoordsets
  rw [hn]
  simp [restrictIdx]

lemma getAtoms_no_view (e : PDBEnsemble) (al : List Nat) (b : Bool)
    (ha : e.atoms = some al) (hn : e.indices = none) : e.getAtoms b = some al := by
  unfold PDBEnsemble.getAtoms
  rw [ha, hn]
  cases b with
  | true => rfl
  | false => rfl

lemma numConfs_ne_zero (e : PDBEnsemble) (hne : e.confs ≠ []) : e.numConfs ≠ 0 := by
  unfold PDBEnsemble.numConfs
  simpa [List.length_eq_zero] using hne

lemma calcOccupancies_normed_eq (e : PDBEnsemble) (w : List (List (List Rat)))
    (hw : e.weights = some w) (hn : e.indices = none) (hne : e.confs ≠ []) :
    calcOccupancies e true
      = .ok ((occupanciesOf w).map (fun x => x / (e.numConfs : Rat))) := by
  unfold calcOccupancies
  rw [if_neg (numConfs_ne_zero e hne), getWeights_no_view e w hw hn]
  rfl

lemma calcOccupancies_raw_eq (e : PDBEnsemble) (w : List (List (List Rat)))
    (hw : e.weights = some w) (hn : e.indices = none) (hne : e.confs ≠ []) :
    calcOccupancies e false = .ok (occupanciesOf w) := by
  unfold calcOccupancies
  rw [if_neg (numConfs_ne_zero e hne), getWeights_no_view e w hw hn]
  rfl

lemma occupanciesOf_length (w : List (List (List Rat))) :
    (occupanciesOf w).length = ((w.map flatRow).headD []).length := by
  simp [occupanciesOf]

lemma occupanciesOf_getD (w : List (List (List Rat))) (j : Nat)
    (hj : j < ((w.map flatRow).headD []).length) :
    (occupanciesOf w).getD j 0
      = ((w.countP (fun r => decide ((flatRow r).getD j 0 ≠ 0)) : Nat) : Rat) := by
  unfold occupanciesOf
  rw [List.getD_eq_getElem _ _ (by simpa using hj), List.getElem_map, List.getElem_range,
    List.countP_map]
  rfl

lemma occupanciesOf_mem (w : List (List (List Rat))) (x : Rat) (hx : x ∈ occupanciesOf w) :
    ∃ k : Nat, k ≤ w.length ∧ x = (k : Rat) := by
  unfold occupanciesOf at hx
  rw [List.mem_map] at hx
  obtain ⟨j, _, rfl⟩ := hx
  refine ⟨_, ?_, rfl⟩
  have h := List.countP_le_length (fun r => decide (r.getD j 0 ≠ 0)) (l := w.map flatRow)
  rwa [List.length_map] at h

/-- C2: calcOccupancies errors whenever the ensemble has zero conformations or
no weight array; with normed=True it returns, for every atom, the fraction of
conformations with nonzero weight at that atom (any nonzero weight counted as
one), so every value lies in [0,1] and an atom with nonzero weight in every
conformation yields exactly 1; with normed=False the values are the
integer-valued counts. -/
theorem calcOccupancies_spec (e : PDBEnsemble) (w : List (List (List Rat)))
    (hw : e.weights = some w) (hn : e.indices = none)
    (hM : w.length = e.numConfs) (hne : e.confs ≠ []) :
    (∀ (e2 : PDBEnsemble) (normed : Bool), e2.confs = [] →
      ∃ m, calcOccupancies e2 normed = .error m)
    ∧ (∀ (e2 : PDBEnsemble) (normed : Bool), e2.weights = none → e2.confs ≠ [] →
      ∃ m, calcOccupancies e2 normed = .error m)
    ∧ (∃ occ, calcOccupancies e true = .ok occ
        ∧ (∀ x ∈ occ, 0 ≤ x ∧ x ≤ 1)
        ∧ (∀ j, j < occ.length →
            occ.getD j 0
              = ((w.countP (fun r => decide ((flatRow r).getD j 0 ≠ 0)) : Nat) : Rat)
                / (e.numConfs : Rat))
        ∧ (∀ j, j < occ.length → (∀ r ∈ w, (flatRow r).getD j 0 ≠ 0) →
            occ.getD j 0 = 1))
    ∧ (∃ occ, calcOccupancies e false = .ok occ ∧ ∀ x ∈ occ, ∃ k : Nat, x = (k : Rat)) := by
  have hMpos : 0 < e.numConfs := by
    unfold PDBEnsemble.numConfs
    exact List.length_pos.mpr hne
  have hMq : (0 : Rat) < (e.numConfs : Rat) := by exact_mod_cast hMpos
  refine ⟨?_, ?_, ?_, ?_⟩
  · intro e2 normed h
    refine ⟨"ValueError: pdb_ensemble does not contain any conformations", ?_⟩
    unfold calcOccupancies
    rw [if_pos (by unfold PDBEnsemble.numConfs; rw [h]; rfl)]
  · intro e2 normed hw2 hne2
    refine ⟨"ValueError: pdb_ensemble weights are not set", ?_⟩
    unfold calcOccupancies
    rw [if_neg (numConfs_ne_zero e2 hne2)]
    have hgw : e2.getWeights = none := by
      unfold PDBEnsemble.getWeights
      rw [hw2]
      rfl
    rw [hgw]
  · refine ⟨_, calcOccupancies_normed_eq e w hw hn hne, ?_, ?_, ?_⟩
    · intro x hx
      rw [List.mem_map] at hx
      obtain ⟨q, hq, rfl⟩ := hx
      obtain ⟨k, hk, rfl⟩ := occupanciesOf_mem w q hq
      constructor
      · exact div_nonneg (by positivity) (le_of_lt hMq)
      · rw [div_le_one hMq]
        calc ((k : Nat) : Rat) ≤ ((w.length : Nat) : Rat) := by exact_mod_cast hk
          _ = (e.numConfs : Rat) := by rw [hM]
    · intro j hj
      have hjN : j < ((w.map flatRow).headD []).length := by
        have hlen : ((occupanciesOf w).map
            (fun x => x / (e.numConfs : Rat))).length = ((w.map flatRow).headD []).length := by
          rw [List.length_map, occupanciesOf_length]
        rwa [hlen] at hj
      rw [List.getD_eq_getElem _ _ hj, List.getElem_map,
        ← List.getD_eq_getElem (occupanciesOf w) 0 (by rwa [occupanciesOf_length]),
        occupanciesOf_getD w j hjN]
    · intro j hj hall
      have hjN : j < ((w.map flatRow).headD []).length := by
        have hlen : ((occupanciesOf w).map
            (fun x => x / (e.numConfs : Rat))).length = ((w.map flatRow).headD []).length := by
          rw [List.length_map, occupanciesOf_length]
        rwa [hlen] at hj
      rw [List.getD_eq_getElem _ _ hj, List.getElem_map,
        ← List.getD_eq_getElem (occupanciesOf w) 0 (by rwa [occupanciesOf_length]),
        occupanciesOf_getD w j hjN]
      have hcount : w.countP (fun r => decide ((flatRow r).getD j 0 ≠ 0)) = w.length :=
        List.countP_eq_length.mpr (fun r hr => decide_eq_true (hall r hr))
      rw [hcount, hM]
      exact div_self (ne_of_gt hMq)
  · refine ⟨_, calcOccupancies_raw_eq e w hw hn hne, ?_⟩
    intro x hx
    obtain ⟨k, _, rfl⟩ := occupanciesOf_mem w x hx
    exact ⟨k, rfl⟩

/-- Witness for C2 at a concrete two-conformation, two-atom ensemble. -/
theorem calcOccupancies_witness :
    (c2Ens.weights = some [[[1], [0]], [[1], [1]]] ∧ c2Ens.indices = none
      ∧ ([[[1], [0]], [[1], [1]]] : List (List (List Rat))).length = c2Ens.numConfs
      ∧ c2Ens.confs ≠ [])
    ∧ (∃ occ, calcOccupancies c2Ens false = .ok occ ∧ ∀ x ∈ occ, ∃ k : Nat, x = (k : Rat)) :=
  ⟨⟨rfl, rfl, by decide, by decide⟩,
   (calcOccupancies_spec c2Ens [[[1], [0]], [[1], [1]]] rfl rfl (by decide) (by decide)).2.2.2⟩

lemma trim_hard_some_eq (e : PDBEnsemble) (w : List (List (List Rat))) (occs : List Rat)
    (θ : Rat) (hardKw : Bool)
    (hhard : trimIsHard e (some θ) hardKw = true)
    (hnc : ¬(e.numConfs = 0 ∨ e.numAtoms = 0))
    (hθ : 0 < θ ∧ θ ≤ 1)
    (hocc : calcOccupancies e true = .ok occs)
    (hW : e.getWeights = some w) :
    trimPDBEnsemble e (some θ) hardKw = .ok
      { title := e.title,
        coords := (e.getCoords).map (fun cd => maskList (occs.map (fun x => decide (θ ≤ x))) cd),
        confs := (e.getCoordsets).map (fun row => maskList (occs.map (fun x => decide (θ ≤ x))) row),
        weights := some (w.map (fun row => maskList (occs.map (fun x => decide (θ ≤ x))) row)),
        labels := e.getLabels,
        indices := none,
        atoms := (e.getAtoms true).map (fun a => maskList (occs.map (fun x => decide (θ ≤ x))) a),
        trans := none } := by
  unfold trimPDBEnsemble
  rw [if_neg hnc]
  try dsimp only
  rw [if_neg (not_not.mpr hθ), hocc]
  try dsimp only
  rw [hhard]
  try dsimp only
  rw [hW]
  rfl

lemma trim_soft_some_eq (e : PDBEnsemble) (occs : List Rat) (θ : Rat)
    (hsoft : trimIsHard e (some θ) false = false)
    (hn : e.indices = none)
    (hnc : ¬(e.numConfs = 0 ∨ e.numAtoms = 0))
    (hθ : 0 < θ ∧ θ ≤ 1)
    (hocc : calcOccupancies e true = .ok occs) :
    trimPDBEnsemble e (some θ) false = .ok
      { title := e.title,
        coords := e.coords,
        confs := e.confs,
        weights := e.weights,
        labels := e.getLabels,
        indices := some ((List.range (occs.map (fun x => decide (θ ≤ x))).length).filter
            (fun j => (occs.map (fun x => decide (θ ≤ x))).getD j false)),
        atoms := e.atoms,
        trans := none } := by
  unfold trimPDBEnsemble
  rw [if_neg hnc]
  try dsimp only
  rw [if_neg (not_not.mpr hθ), hocc]
  try dsimp only
  rw [hsoft]
  try dsimp only
  rw [hn]
  rfl

lemma trim_none_eq (e : PDBEnsemble) (cd : List Coord) (w : List (List (List Rat)))
    (hardKw : Bool)
    (hnc : ¬(e.numConfs = 0 ∨ e.numAtoms = 0))
    (hC : e.getCoords = some cd)
    (hW : e.getWeights = some w) :
    trimPDBEnsemble e none hardKw = .ok
      { title := e.title,
        coords := (e.getCoords).map (fun c => maskList (List.replicate cd.length true) c),
        confs := (e.getCoordsets).map
          (fun row => maskList (List.replicate cd.length true) row),
        weights := some (w.map (fun row => maskList (List.replicate cd.length true) row)),
        labels := e.getLabels,
        indices := none,
        atoms := (e.getAtoms true).map (fun a => maskList (List.replicate cd.length true) a),
        trans := none } := by
  have hh : trimIsHard e none hardKw = true := by
    simp [trimIsHard]
  unfold trimPDBEnsemble
  rw [if_neg hnc]
  try dsimp only
  rw [hC]
  try dsimp only
  rw [hh]
  try dsimp only
  rw [hW]
  rfl

lemma headD_map_flatRow_length (w : List (List (List Rat))) (cd : List Coord)
    (hw0 : w ≠ []) (hN : ∀ r ∈ w, (flatRow r).length = cd.length) :
    ((w.map flatRow).headD []).length = cd.length := by
  match w, hw0 with
  | r :: w2, _ =>
    simp only [List.map_cons, List.headD_cons]
    exact hN r (List.mem_cons_self r w2)

lemma occupancy_full_count (w : List (List (List Rat))) (cd : List Coord) (M : Nat)
    (hM : w.length = M) (hMpos : 0 < M) (hw0 : w ≠ [])
    (hN : ∀ r ∈ w, (flatRow r).length = cd.length) :
    ((occupanciesOf w).map (fun x => decide ((1 : Rat) ≤ x / (M : Rat)))).countP id
      = ((List.range cd.length).filter
          (fun j => decide (∀ r ∈ w, (flatRow r).getD j 0 ≠ 0))).length := by
  have hMq : (0 : Rat) < (M : Rat) := by exact_mod_cast hMpos
  have hN0 := headD_map_flatRow_length w cd hw0 hN
  have hLlen : (w.map flatRow).length = M := by rw [List.length_map, hM]
  rw [← List.countP_eq_length_filter, List.countP_map]
  unfold occupanciesOf
  rw [List.countP_map, ← hN0]
  apply List.countP_congr
  intro j _
  simp only [Function.comp, id, decide_eq_true_eq]
  rw [one_le_div hMq, Nat.cast_le]
  have hcle : (w.map flatRow).countP (fun r => decide (r.getD j 0 ≠ 0))
      ≤ (w.map flatRow).length := List.countP_le_length _
  constructor
  · intro hle
    have heq : (w.map flatRow).countP (fun r => decide (r.getD j 0 ≠ 0))
        = (w.map flatRow).length := by omega
    have hall := List.countP_eq_length.mp heq
    rw [List.forall_mem_map] at hall
    intro r hr
    have := hall r hr
    simpa [decide_eq_true_eq] using this
  · intro hall
    have heq : (w.map flatRow).countP (fun r => decide (r.getD j 0 ≠ 0))
        = (w.map flatRow).length := by
      apply List.countP_eq_length.mpr
      rw [List.forall_mem_map]
      intro r hr
      exact decide_eq_true (hall r hr)
    omega

/-- C3: trimPDBEnsemble keeps exactly the atoms whose normalized occupancy
reaches the occupancy threshold; hard-trimming at occupancy=1.0 yields an
ensemble whose atom count equals the number of atoms with nonzero weight in
every conformation, while soft-trimming at the same threshold keeps the
underlying per-atom arrays unchanged and narrows the active selection view to
that same count. -/
theorem trimPDBEnsemble_occupancy_spec
    (e : PDBEnsemble) (w : List (List (List Rat))) (cd : List Coord) (al : List Nat)
    (hw : e.weights = some w) (hc : e.coords = some cd) (ha : e.atoms = some al)
    (hn : e.indices = none) (hne : e.confs ≠ []) (hcd : cd ≠ [])
    (hM : w.length = e.numConfs)
    (hN : ∀ r ∈ w, (flatRow r).length = cd.length)
    (hal : al.length = cd.length) :
    (∀ θ : Rat, 0 < θ → θ ≤ 1 →
      ∃ t, trimPDBEnsemble e (some θ) true = .ok t
        ∧ t.coords = some (maskList
            ((occupanciesOf w).map (fun x => decide (θ ≤ x / (e.numConfs : Rat)))) cd)
        ∧ t.atoms = some (maskList
            ((occupanciesOf w).map (fun x => decide (θ ≤ x / (e.numConfs : Rat)))) al))
    ∧ (∃ t, trimPDBEnsemble e (some 1) true = .ok t
        ∧ t.numAtoms = ((List.range cd.length).filter
            (fun j => decide (∀ r ∈ w, (flatRow r).getD j 0 ≠ 0))).length)
    ∧ (∃ t, trimPDBEnsemble e (some 1) false = .ok t
        ∧ t.coords = e.coords ∧ t.confs = e.confs ∧ t.weights = e.weights
        ∧ ∃ l, t.indices = some l
            ∧ l.length = ((List.range cd.length).filter
                (fun j => decide (∀ r ∈ w, (flatRow r).getD j 0 ≠ 0))).length) := by
  have hMpos : 0 < e.numConfs := by
    unfold PDBEnsemble.numConfs
    exact List.length_pos.mpr hne
  have hw0 : w ≠ [] := by
    intro h0
    rw [h0] at hM
    simp only [List.length_nil] at hM
    omega
  have hnc : ¬(e.numConfs = 0 ∨ e.numAtoms = 0) := by
    push_neg
    refine ⟨numConfs_ne_zero e hne, ?_⟩
    unfold PDBEnsemble.numAtoms
    rw [hn, hc]
    simpa [List.length_eq_zero] using hcd
  have hW := getWeights_no_view e w hw hn
  have hC := getCoords_no_view e cd hc hn
  have hmask : ∀ θ : Rat,
      (((occupanciesOf w).map (fun x => x / (e.numConfs : Rat))).map
          (fun x => decide (θ ≤ x)))
        = (occupanciesOf w).map (fun x => decide (θ ≤ x / (e.numConfs : Rat))) := by
    intro θ
    rw [List.map_map]
    rfl
  have hocc := calcOccupancies_normed_eq e w hw hn hne
  have hN0 := headD_map_flatRow_length w cd hw0 hN
  have hcount := occupancy_full_count w cd e.numConfs hM hMpos hw0 hN
  have hlen1 : (((occupanciesOf w).map (fun x => x / (e.numConfs : Rat))).map
      (fun x => decide ((1 : Rat) ≤ x))).length = cd.length := by
    rw [List.length_map, List.length_map, occupanciesOf_length, hN0]
  refine ⟨?_, ?_, ?_⟩
  · intro θ hθ1 hθ2
    have htrim := trim_hard_some_eq e w _ θ true (by simp [trimIsHard]) hnc ⟨hθ1, hθ2⟩ hocc hW
    refine ⟨_, htrim, ?_, ?_⟩
    · show (e.getCoords).map _ = _
      rw [hC, Option.map_some', hmask θ]
    · show (e.getAtoms true).map _ = _
      rw [getAtoms_no_view e al true ha hn, Option.map_some', hmask θ]
  · have htrim := trim_hard_some_eq e w _ 1 true (by simp [trimIsHard]) hnc
      ⟨one_pos, le_refl 1⟩ hocc hW
    refine ⟨_, htrim, ?_⟩
    show PDBEnsemble.numAtoms _ = _
    unfold PDBEnsemble.numAtoms
    dsimp only
    rw [hC, Option.map_some', Option.getD_some]
    rw [maskList_length _ _ hlen1, hmask 1]
    exact hcount
  · have hsoft : trimIsHard e (some 1) false = false := by
      simp [trimIsHard, ha]
    have htrim := trim_soft_some_eq e _ 1 hsoft hn hnc ⟨one_pos, le_refl 1⟩ hocc
    refine ⟨_, htrim, rfl, rfl, rfl, ?_⟩
    refine ⟨_, rfl, ?_⟩
    rw [range_filter_getD_length, hmask 1]
    exact hcount

/-- Witness for C3 at a concrete two-conformation, two-atom ensemble in which
only atom 0 is present in every conformation. -/
theorem trimPDBEnsemble_occupancy_witness :
    (c7Ens.weights = some [[[1], [0]], [[1], [1]]] ∧ c7Ens.confs ≠ []
      ∧ ([[[1], [0]], [[1], [1]]] : List (List (List Rat))).length = c7Ens.numConfs)
    ∧ (∃ t, trimPDBEnsemble c7Ens (some 1) true = .ok t
        ∧ t.numAtoms = ((List.range ([(0, 0, 0), (0, 0, 0)] : List Coord).length).filter
            (fun j => decide (∀ r ∈ ([[[1], [0]], [[1], [1]]] : List (List (List Rat))),
              (flatRow r).getD j 0 ≠ 0))).length) :=
  ⟨⟨rfl, by decide, by decide⟩,
   (trimPDBEnsemble_occupancy_spec c7Ens [[[1], [0]], [[1], [1]]] [(0, 0, 0), (0, 0, 0)]
     [5, 6] rfl rfl rfl rfl (by decide) (by decide) (by decide) (by decide) (by decide)).2.1⟩

/-- C7 counterexample: trimPDBEnsemble does not fail when occupancy is None
(it silently performs a hard trim and returns a new ensemble), and it does not
fail when no atom structure is attached either. -/
theorem trim_no_failure_counterexample :
    (∃ t, trimPDBEnsemble c7Ens none false = .ok t)
    ∧ (∃ t, trimPDBEnsemble c7EnsNoAtoms (some (1 / 2)) false = .ok t) := by
  constructor
  · exact ⟨_, trim_none_eq c7Ens [(0, 0, 0), (0, 0, 0)] [[[1], [0]], [[1], [1]]] false
      (by decide) rfl rfl⟩
  · exact ⟨_, trim_hard_some_eq c7EnsNoAtoms [[[1], [0]], [[1], [1]]] _ (1 / 2) false rfl
      (by decide) ⟨by norm_num, by norm_num⟩
      (calcOccupancies_normed_eq c7EnsNoAtoms [[[1], [0]], [[1], [1]]] rfl rfl (by decide))
      rfl⟩

/-- C7 (amended): a missing atom structure or a missing occupancy argument
forces the hard path of trimPDBEnsemble instead of making it fail; with
occupancy=None the call succeeds for every ensemble whose conformations,
active atoms, reference coordinates and weights are set. -/
theorem trim_hard_forced_spec :
    (∀ (e : PDBEnsemble) (occupancy : Option Rat) (hardKw : Bool),
      e.atoms = none ∨ occupancy = none → trimIsHard e occupancy hardKw = true)
    ∧ (∀ (e : PDBEnsemble) (cd : List Coord) (w : List (List (List Rat))) (hardKw : Bool),
        e.getCoords = some cd → e.getWeights = some w →
        ¬(e.numConfs = 0 ∨ e.numAtoms = 0) →
        ∃ t, trimPDBEnsemble e none hardKw = .ok t) := by
  constructor
  · intro e occupancy hardKw h
    rcases h with h | h
    · simp [trimIsHard, h]
    · simp [trimIsHard, h]
  · intro e cd w hardKw hC hW hnc
    exact ⟨_, trim_none_eq e cd w hardKw hnc hC hW⟩

/-- Witness for C7 (amended) at a concrete ensemble. -/
theorem trim_hard_forced_witness :
    (c7Ens.getCoords = some [(0, 0, 0), (0, 0, 0)]
      ∧ c7Ens.getWeights = some [[[1], [0]], [[1], [1]]]
      ∧ ¬(c7Ens.numConfs = 0 ∨ c7Ens.numAtoms = 0))
    ∧ (∃ t, trimPDBEnsemble c7Ens none true = .ok t) :=
  ⟨⟨rfl, rfl, by decide⟩,
   trim_hard_forced_spec.2 c7Ens [(0, 0, 0), (0, 0, 0)] [[[1], [0]], [[1], [1]]] true
     rfl rfl (by decide)⟩

lemma buildLoop_unmapped (mapper : AtomicM → Option AtomicM → List AtomMapR)
    (select : AtomicM → AtomicM) (applySel : Bool) (target : Option AtomicM) :
    ∀ (pairs : List (Option AtomicM × Option String)) (ens : BuildEns)
      (un : List (Option String)),
      (∀ a : AtomicM, (∃ l, (some a, l) ∈ pairs) → a.hasHier = true) →
      ∃ ens2, buildLoop mapper select applySel target pairs ens un
        = .ok (ens2, un ++ expectedUnmapped mapper select applySel target pairs) := by
  intro pairs
  induction pairs with
  | nil =>
    intro ens un _
    exact ⟨ens, by simp [buildLoop, expectedUnmapped]⟩
  | cons p ps ih =>
    intro ens un hh
    have hh2 : ∀ a : AtomicM, (∃ l, (some a, l) ∈ ps) → a.hasHier = true := by
      intro a ha
      obtain ⟨l2, hl2⟩ := ha
      exact hh a ⟨l2, List.mem_cons_of_mem _ hl2⟩
    obtain ⟨a?, l⟩ := p
    match a? with
    | none =>
      simp only [buildLoop]
      have hexp : expectedUnmapped mapper select applySel target ((none, l) :: ps)
          = l :: expectedUnmapped mapper select applySel target ps := by
        simp [expectedUnmapped, List.filterMap_cons]
      rw [hexp]
      obtain ⟨ens2, heq⟩ := ih ens (un ++ [l]) hh2
      exact ⟨ens2, by rw [heq]; simp [List.append_assoc]⟩
    | some a =>
      have ha : a.hasHier = true := hh a ⟨l, List.mem_cons_self _ _⟩
      simp only [buildLoop]
      rw [if_neg (by rw [ha]; intro hf; exact hf rfl)]
      try dsimp only
      by_cases hz : (mapper (if applySel then select a else a) target).length = 0
      · rw [if_pos hz]
        have hz2 : mapper (if applySel then select a else a) target = [] :=
          List.length_eq_zero.mp hz
        have hexp : expectedUnmapped mapper select applySel target ((some a, l) :: ps)
            = l :: expectedUnmapped mapper select applySel target ps := by
          simp [expectedUnmapped, List.filterMap_cons, hz2]
        rw [hexp]
        obtain ⟨ens2, heq⟩ := ih ens (un ++ [l]) hh2
        exact ⟨ens2, by rw [heq]; simp [List.append_assoc]⟩
      · rw [if_neg hz]
        have hz2 : mapper (if applySel then select a else a) target ≠ [] := by
          intro hf
          exact hz (by rw [hf]; rfl)
        have hexp : expectedUnmapped mapper select applySel target ((some a, l) :: ps)
            = expectedUnmapped mapper select applySel target ps := by
          simp [expectedUnmapped, List.filterMap_cons, hz2]
        rw [hexp]
        exact ih _ un hh2

/-- C4 counterexample: an empty input list with an ensemble reference does not
raise at all: the builder returns the reference ensemble and an empty
unmapped list, contradicting a raise for every input list of size < 2. -/
theorem build_small_list_no_raise :
    buildPDBEnsemble (fun _ _ => []) (fun a => a) false [] (.ens c4Ens) "T" none []
      = .ok (c4Ens, []) := rfl

/-- C4 (amended): buildPDBEnsemble raises the fewer-than-two-items ValueError
exactly for input lists of length 1; with an ensemble reference and default
labels it never raises because of unmappable inputs: every None input and
every input for which the mapping service returns zero AtomMaps has its label
appended to the unmapped output, in input order, and processing continues. -/
theorem buildPDBEnsemble_error_and_unmapped :
    (∀ (mapper : AtomicM → Option AtomicM → List AtomMapR) (select : AtomicM → AtomicM)
       (applySel : Bool) (atomics : List (Option AtomicM)) (ref : BuildRef) (title : String)
       (labels0 : Option (List (Option String))) (un0 : List (Option String)),
       atomics.length = 1 →
       buildPDBEnsemble mapper select applySel atomics ref title labels0 un0
         = .error "ValueError: atomics should have at least two items")
    ∧ (∀ (mapper : AtomicM → Option AtomicM → List AtomMapR) (select : AtomicM → AtomicM)
        (applySel : Bool) (atomics : List (Option AtomicM)) (e0 : BuildEns) (title : String)
        (un0 : List (Option String)),
        (∀ a : AtomicM, some a ∈ atomics → a.hasHier = true) →
        atomics.length ≠ 1 →
        ∃ ens2, buildPDBEnsemble mapper select applySel atomics (.ens e0) title none un0
          = .ok (ens2, un0 ++ expectedUnmapped mapper select applySel e0.atoms
              (atomics.zip (atomics.map (fun a => Option.map AtomicM.title a))))) := by
  constructor
  · intro mapper select applySel atomics ref title labels0 un0 h1
    unfold buildPDBEnsemble
    rw [if_pos h1]
  · intro mapper select applySel atomics e0 title un0 hh h1
    have hloop := buildLoop_unmapped mapper select applySel e0.atoms
      (atomics.zip (atomics.map (fun a => Option.map AtomicM.title a))) e0 un0
      (fun a ha => by
        obtain ⟨l, hl⟩ := ha
        exact hh a (List.of_mem_zip hl).1)
    obtain ⟨ens2, heq⟩ := hloop
    refine ⟨ens2, ?_⟩
    unfold buildPDBEnsemble
    rw [if_neg h1]
    exact heq

/-- Witness for C4 (amended): two None inputs with an ensemble reference are
both recorded as unmapped and nothing is raised. -/
theorem buildPDBEnsemble_unmapped_witness :
    ((∀ a : AtomicM, some a ∈ ([none, none] : List (Option AtomicM)) → a.hasHier = true)
      ∧ ([none, none] : List (Option AtomicM)).length ≠ 1)
    ∧ ∃ ens2, buildPDBEnsemble (fun _ _ => []) (fun a => a) false [none, none]
        (.ens c4Ens) "T" none []
        = .ok (ens2, [] ++ expectedUnmapped (fun _ _ => []) (fun a => a) false c4Ens.atoms
            (([none, none] : List (Option AtomicM)).zip
              (([none, none] : List (Option AtomicM)).map (fun a => Option.map AtomicM.title a)))) :=
  ⟨⟨fun a ha => by simp at ha, by decide⟩,
   buildPDBEnsemble_error_and_unmapped.2 (fun _ _ => []) (fun a => a) false [none, none]
     c4Ens "T" [] (fun a ha => by simp at ha) (by decide)⟩

lemma alignStep_appends (fetch : String → Option String) (parse : String → AtomGroupM)
    (outdir suffix gz : String)
    (st : List (Option String) × List (String × AtomGroupM)) (c : PDBConfM)
    (hc : c.hasTrans = true) :
    ∃ x d2, alignStep fetch parse outdir suffix gz st c = .ok (st.1 ++ [x], d2) := by
  unfold alignStep
  rw [if_neg (by rw [hc]; intro hf; exact hf rfl)]
  try dsimp only
  rcases List.lookup (pdbIdOf c.label) st.2 with _ | ag
  · rcases fetch (pdbIdOf c.label) with _ | fn
    · exact ⟨none, st.2, rfl⟩
    · simp only [Option.map_some']
      try dsimp only
      rcases parseModelIndex c.label with _ | a
      · exact ⟨_, _, rfl⟩
      · try dsimp only
        by_cases hge : ((parse fn).ncsets : Int) ≤ a
        · exact ⟨none, st.2, by rw [if_pos (decide_eq_true hge)]⟩
        · exact ⟨_, _, by rw [if_neg (fun hh => hge (of_decide_eq_true hh))]⟩
  · try dsimp only
    rcases parseModelIndex c.label with _ | a
    · exact ⟨_, _, rfl⟩
    · try dsimp only
      by_cases hge : ((ag.ncsets : Int) ≤ a)
      · exact ⟨none, st.2, by rw [if_pos (decide_eq_true hge)]⟩
      · exact ⟨_, _, by rw [if_neg (fun hh => hge (of_decide_eq_true hh))]⟩

lemma alignLoop_ok (fetch : String → Option String) (parse : String → AtomGroupM)
    (outdir suffix gz : String) :
    ∀ (confs : List PDBConfM) (st : List (Option String) × List (String × AtomGroupM)),
      (∀ c ∈ confs, c.hasTrans = true) →
      ∃ xs d2, alignLoop fetch parse outdir suffix gz confs st = .ok (st.1 ++ xs, d2)
        ∧ xs.length = confs.length := by
  intro confs
  induction confs with
  | nil =>
    intro st _
    exact ⟨[], st.2, by simp [alignLoop], rfl⟩
  | cons c cs ih =>
    intro st h
    obtain ⟨x, d2, hstep⟩ := alignStep_appends fetch parse outdir suffix gz st c
      (h c (List.mem_cons_self _ _))
    obtain ⟨xs, d3, hloop, hlen⟩ := ih (st.1 ++ [x], d2)
      (fun c2 hc2 => h c2 (List.mem_cons_of_mem _ hc2))
    refine ⟨x :: xs, d3, ?_, by simp [hlen]⟩
    simp only [alignLoop]
    rw [hstep]
    try dsimp only
    rw [hloop]
    simp [List.append_assoc]

/-- C6 counterexample: an ensemble with exactly one conformation whose source
file cannot be fetched returns the bare entry None, not a single output
path. -/
theorem align_single_failure_returns_none :
    alignPDBEnsemble (fun _ => none) (fun _ => ⟨1⟩) [⟨"XXXX_m9", true⟩] "_aligned" "." ""
      = .ok (.one none) := rfl

/-- C6 (amended): when every conformation carries a Transformation, the
exporter records exactly one output entry per conformation and never aborts:
a conformation whose source file is not found (cache miss and failed fetch)
or whose label encodes an out-of-range model number gets None at its position
(a warning is logged on the side channel) and the cache is left unchanged so
the remaining conformations are still processed; the return value is the
single recorded entry - a path, or None if that conformation failed - when
the ensemble has exactly one conformation, and otherwise the ordered output
list. -/
theorem alignPDBEnsemble_failures_spec :
    (∀ (fetch : String → Option String) (parse : String → AtomGroupM)
       (suffix outdir gz : String) (confs : List PDBConfM),
       (∀ c ∈ confs, c.hasTrans = true) →
       ∃ out d2, alignLoop fetch parse outdir suffix gz confs ([], []) = .ok (out, d2)
         ∧ out.length = confs.length
         ∧ (∀ p, out = [p] → alignPDBEnsemble fetch parse confs suffix outdir gz = .ok (.one p))
         ∧ (out.length ≠ 1 →
             alignPDBEnsemble fetch parse confs suffix outdir gz = .ok (.many out)))
    ∧ (∀ (fetch : String → Option String) (parse : String → AtomGroupM)
        (outdir suffix gz : String)
        (st : List (Option String) × List (String × AtomGroupM)) (c : PDBConfM),
        c.hasTrans = true →
        List.lookup (pdbIdOf c.label) st.2 = none →
        fetch (pdbIdOf c.label) = none →
        alignStep fetch parse outdir suffix gz st c = .ok (st.1 ++ [none], st.2))
    ∧ (∀ (fetch : String → Option String) (parse : String → AtomGroupM)
        (outdir suffix gz : String)
        (st : List (Option String) × List (String × AtomGroupM)) (c : PDBConfM)
        (fn : String) (a : Int),
        c.hasTrans = true →
        List.lookup (pdbIdOf c.label) st.2 = none →
        fetch (pdbIdOf c.label) = some fn →
        parseModelIndex c.label = some a →
        ((parse fn).ncsets : Int) ≤ a →
        alignStep fetch parse outdir suffix gz st c = .ok (st.1 ++ [none], st.2))
    ∧ (∀ (fetch : String → Option String) (parse : String → AtomGroupM)
        (outdir suffix gz : String)
        (st : List (Option String) × List (String × AtomGroupM)) (c : PDBConfM)
        (ag : AtomGroupM) (a : Int),
        c.hasTrans = true →
        List.lookup (pdbIdOf c.label) st.2 = some ag →
        parseModelIndex c.label = some a →
        (ag.ncsets : Int) ≤ a →
        alignStep fetch parse outdir suffix gz st c = .ok (st.1 ++ [none], st.2)) := by
  refine ⟨?_, ?_, ?_, ?_⟩
  · intro fetch parse suffix outdir gz confs h
    obtain ⟨xs, d2, hloop, hlen⟩ := alignLoop_ok fetch parse outdir suffix gz confs ([], []) h
    refine ⟨xs, d2, by simpa using hloop, by simpa using hlen, ?_, ?_⟩
    · intro p hp
      unfold alignPDBEnsemble
      rw [show ([] : List (Option String)) ++ xs = xs from by simp] at hloop
      rw [hloop, hp]
    · intro hne
      unfold alignPDBEnsemble
      rw [show ([] : List (Option String)) ++ xs = xs from by simp] at hloop
      rw [hloop]
      match xs, hne with
      | [], _ => rfl
      | x :: y :: rest, _ => rfl
      | [x], hne => exact absurd rfl hne
  · intro fetch parse outdir suffix gz st c hc hlk hf
    unfold alignStep
    rw [if_neg (by rw [hc]; intro h2; exact h2 rfl)]
    try dsimp only
    rw [hlk, hf]
    rfl
  · intro fetch parse outdir suffix gz st c fn a hc hlk hf hpm hge
    unfold alignStep
    rw [if_neg (by rw [hc]; intro h2; exact h2 rfl)]
    try dsimp only
    rw [hlk, hf]
    simp only [Option.map_some']
    try dsimp only
    rw [hpm]
    try dsimp only
    rw [if_pos (by exact decide_eq_true hge)]
  · intro fetch parse outdir suffix gz st c ag a hc hlk hpm hge
    unfold alignStep
    rw [if_neg (by rw [hc]; intro h2; exact h2 rfl)]
    try dsimp only
    rw [hlk]
    try dsimp only
    rw [hpm]
    try dsimp only
    rw [if_pos (by exact decide_eq_true hge)]

/-- Witness for C6 (amended): two conformations with transformations, both
with unfetchable source files, produce a two-entry output list. -/
theorem alignPDBEnsemble_failures_witness :
    (∀ c ∈ ([⟨"AAAA", true⟩, ⟨"BBBB", true⟩] : List PDBConfM), c.hasTrans = true)
    ∧ ∃ out d2, alignLoop (fun _ => none) (fun _ => ⟨1⟩) "." "_aligned" ""
        ([⟨"AAAA", true⟩, ⟨"BBBB", true⟩] : List PDBConfM) ([], []) = .ok (out, d2)
      ∧ out.length = ([⟨"AAAA", true⟩, ⟨"BBBB", true⟩] : List PDBConfM).length
      ∧ (∀ p, out = [p] → alignPDBEnsemble (fun _ => none) (fun _ => ⟨1⟩)
          [⟨"AAAA", true⟩, ⟨"BBBB", true⟩] "_aligned" "." "" = .ok (.one p))
      ∧ (out.length ≠ 1 → alignPDBEnsemble (fun _ => none) (fun _ => ⟨1⟩)
          [⟨"AAAA", true⟩, ⟨"BBBB", true⟩] "_aligned" "." "" = .ok (.many out)) :=
  ⟨by decide,
   alignPDBEnsemble_failures_spec.1 (fun _ => none) (fun _ => ⟨1⟩) "_aligned" "." ""
     [⟨"AAAA", true⟩, ⟨"BBBB", true⟩] (by decide)⟩

/-- C9: for every nonempty PDBEnsemble with coordinates and a (3-D) weight
array set, loading the archive written by saveEnsemble reproduces the
original reference coordinates, conformation coordinates, weights, labels,
selection view, transformations and title exactly; and loading reconstructs
the presence-aware (PDBEnsemble) kind exactly when a 3-D weight array is
present in the archive. -/
theorem saveLoad_roundtrip_spec (e : PDBEnsemble) (w : List (List (List Rat)))
    (cd : List Coord)
    (hne : e.confs ≠ []) (hc : e.coords = some cd) (hw : e.weights = some w) :
    ((saveEnsemble (.pdb e)).bind loadEnsemble = .ok (.pdb e))
    ∧ (∀ (arch : EnsArchive) (r : EnsembleObj), loadEnsemble arch = .ok r →
        ((∃ e2, r = .pdb e2) ↔ ∃ w3, arch.weights = some (.dim3 w3))) := by
  constructor
  · obtain ⟨ti, co, cf, wt, lb, ind, am, tr⟩ := e
    dsimp only at hc hw hne
    subst hc
    subst hw
    have hlen : ¬(cf.length = 0) := by simpa [List.length_eq_zero] using hne
    unfold saveEnsemble
    dsimp only
    rw [if_neg hlen]
    simp [loadEnsemble, Except.bind, List.map_map, Function.comp, normalizeLabel,
      Option.map_some']
    exact List.map_id' lb
  · intro arch r h
    unfold loadEnsemble at h
    rcases hco : arch.coords with _ | cd <;> rw [hco] at h
    · exact absurd h (by simp)
    · rcases hwt : arch.weights with _ | w2 <;> rw [hwt] at h
      · injection h with h2
        subst h2
        simp [hwt]
      · rcases w2 with w2 | w3
        · injection h with h2
          subst h2
          simp [hwt]
        · injection h with h2
          subst h2
          simp [hwt]

/-- Witness for C9 at a concrete one-conformation ensemble. -/
theorem saveLoad_roundtrip_witness :
    (c9Ens.confs ≠ [] ∧ c9Ens.coords = some [(0, 0, 0)] ∧ c9Ens.weights = some [[[1]]])
    ∧ ((saveEnsemble (.pdb c9Ens)).bind loadEnsemble = .ok (.pdb c9Ens)) :=
  ⟨⟨by decide, rfl, rfl⟩,
   (saveLoad_roundtrip_spec c9Ens [[[1]]] [(0, 0, 0)] (by decide) rfl rfl).1⟩

end ProdyEnsemble
